import Mathlib

/-!
Verification development for the bandcamp-rss repository.

The JavaScript sources are embedded shallowly: the DOM layer (cheerio
selector queries, regex matches on element text) is represented by record
fields holding the values those queries return, the host date parser
(`new Date(string)`) and the WHATWG URL resolver are passed in as function
parameters, and the system clock is a fixed `now : Nat` (milliseconds).
Every scraping / normalization / assembly function is translated
control-flow-faithfully from `src/index.js` (the current multi-feed script)
and, for the legacy variant that implements the generic scraper, from the
first script of `src/unnamed/part_000` (namespace `legacy`).
-/

/-- JS `haystack.includes(needle)`: substring containment (true for ""). -/
def containsSub (hay needle : String) : Bool :=
  hay.toList.tails.any (fun t => needle.toList.isPrefixOf t)

/-- JS `s.startsWith(pat)`. -/
def jsStartsWith (s pat : String) : Bool :=
  pat.toList.isPrefixOf s.toList

/-- JS `s.endsWith(pat)`. -/
def jsEndsWith (s pat : String) : Bool :=
  pat.toList.isSuffixOf s.toList

/-- JS `s.trim()` (whitespace stripped from both ends). -/
def jsTrim (s : String) : String :=
  ⟨((s.toList.dropWhile Char.isWhitespace).reverse.dropWhile Char.isWhitespace).reverse⟩

/-- JS `s.toLowerCase()` (ASCII case folding suffices for this code base). -/
def jsToLower (s : String) : String :=
  ⟨s.toList.map Char.toLower⟩

/-- JS `s.length` (number of code units; all strings here are ASCII). -/
def jsLength (s : String) : Nat :=
  s.toList.length

/-- JS `s.substring(0, n)`. -/
def jsTake (s : String) (n : Nat) : String :=
  ⟨s.toList.take n⟩

/-- `String.replace(/c/g, rep)` for a single-character pattern: every
occurrence of the character `c` is replaced by the list `rep`. -/
def replaceChar (c : Char) (rep : List Char) : List Char → List Char
  | [] => []
  | x :: xs => if x = c then rep ++ replaceChar c rep xs else x :: replaceChar c rep xs

/-- The chained `.replace` calls of `generateFeedForFile` (src/index.js:775-779):
`&` then `<` then `>` then `"` then `'`, each global, in that order. -/
def escapeXmlList (s : List Char) : List Char :=
  replaceChar '\'' ("&apos;".toList)
    (replaceChar '"' ("&quot;".toList)
      (replaceChar '>' ("&gt;".toList)
        (replaceChar '<' ("&lt;".toList)
          (replaceChar '&' ("&amp;".toList) s))))

/-- Sanitization used for titles and descriptions (src/index.js:774-786). -/
def sanitizeText (s : String) : String :=
  ⟨escapeXmlList s.toList⟩

/-- Sanitization used for URL fields: the five XML escapes followed by the
extra `.replace(/=/g, '%3D')` (src/index.js:789-795). -/
def sanitizeUrl (s : String) : String :=
  ⟨replaceChar '=' ("%3D".toList) (escapeXmlList s.toList)⟩

/-- A standard XML entity decoder (the spec's "standard XML-entity decoder"):
decodes `&amp; &lt; &gt; &quot; &apos;` back to literal characters and
passes everything else through unchanged. -/
def unescapeXmlList : List Char → List Char
  | [] => []
  | '&' :: 'a' :: 'm' :: 'p' :: ';' :: rest => '&' :: unescapeXmlList rest
  | '&' :: 'l' :: 't' :: ';' :: rest => '<' :: unescapeXmlList rest
  | '&' :: 'g' :: 't' :: ';' :: rest => '>' :: unescapeXmlList rest
  | '&' :: 'q' :: 'u' :: 'o' :: 't' :: ';' :: rest => '"' :: unescapeXmlList rest
  | '&' :: 'a' :: 'p' :: 'o' :: 's' :: ';' :: rest => '\'' :: unescapeXmlList rest
  | c :: rest => c :: unescapeXmlList rest

/-- String-level wrapper for the XML entity decoder. -/
def unescapeXml (s : String) : String :=
  ⟨unescapeXmlList s.toList⟩

/-- One release record as produced by the scrapers (`{title, url, date, image,
description}`).  `date = some t` is a valid JS `Date` with epoch value `t`;
`date = none` models an `Invalid Date` object.  A missing `image` property is
modelled as `""` (both are falsy in every use site). -/
structure Release where
  title : String
  url : String
  date : Option Nat
  image : String
  description : String
deriving DecidableEq

/-- The sample/placeholder predicate of the release filter in
`generateFeedForFile` (src/index.js:749-769): a release is "real" unless its
title carries a marker word or its URL is an example / dot-free URL. -/
def isRealRelease (r : Release) : Bool :=
  !(containsSub r.title "Sample" || containsSub r.title "Error Reading" ||
    containsSub r.title "Example" || containsSub r.title "Demo") &&
  !(containsSub r.url "example.com" || !containsSub r.url ".")

/-- `releases.filter(...)` of src/index.js:749-769. -/
def filterRealReleases (l : List Release) : List Release :=
  l.filter isRealRelease

/-- Characters of `l` before the first occurrence of `pat` (helper for the
origin computation of `new URL(path, base)`). -/
def beforeSub (pat : List Char) : List Char → List Char
  | [] => []
  | c :: rest => if pat.isPrefixOf (c :: rest) then [] else c :: beforeSub pat rest

/-- Characters of `l` after the first occurrence of `pat`, or `none` when
`pat` does not occur. -/
def afterSub (pat : List Char) : List Char → Option (List Char)
  | [] => none
  | c :: rest =>
    if pat.isPrefixOf (c :: rest) then some ((c :: rest).drop pat.length)
    else afterSub pat rest

/-- Characters up to (excluding) the first `'/'`. -/
def upToSlash : List Char → List Char
  | [] => []
  | c :: rest => if c = '/' then [] else c :: upToSlash rest

/-- `scheme://host` part of an absolute URL: what `new URL(path, base)`
keeps of `base` when `path` starts with `/`. -/
def urlOrigin (url : String) : String :=
  match afterSub "://".toList url.toList with
  | some post => ⟨beforeSub "://".toList url.toList ++ "://".toList ++ upToSlash post⟩
  | none => url

/-- Host component of an absolute URL (used only to state the spec's
"host matches" reading of the dispatch rule). -/
def hostOf (url : String) : String :=
  match afterSub "://".toList url.toList with
  | some post => ⟨upToSlash post⟩
  | none => ""

/-- URL absolutization of src/index.js:81-82: keep `href` when it already
starts with `http`, resolve a root-relative `href` against the base URL's
origin (`new URL(albumUrl, url)`), and otherwise concatenate. -/
def resolveAlbumUrl (base href : String) : String :=
  if jsStartsWith href "http" then href
  else if jsStartsWith href "/" then urlOrigin base ++ href
  else base ++ href

/-- The DOM-level view of one Bandcamp album detail page, as seen by the
date-resolution code of `scrapeBandcamp` (src/index.js:91-193):
* `ldJson`: for each `script[type="application/ld+json"]` tag, the
  `datePublished` field of its parsed JSON (`none` when the JSON does not
  parse or the field is absent; `""` is falsy and also rejected);
* `creditsReleasedMatch`: the capture of
  `/released\s+([A-Za-z]+\s+\d{1,2},?\s+\d{4})/i` on the text of
  `.tralbumData.tralbum-credits` (`none`: element absent or no match);
* `aboutReleaseDate`: trimmed text of `.tralbumData.tralbum-about-release-date`
  when that element exists;
* `metaDatePublished`: `content` attribute of `meta[itemprop="datePublished"]`
  when that element exists;
* `bodyReleasedMatches`: all matches of the same `released ...` pattern in the
  body text, with the `released\s+` prefix already stripped;
* `about`: trimmed text of `.tralbum-about` (the album notes). -/
structure AlbumPage where
  ldJson : List (Option String)
  creditsReleasedMatch : Option String
  aboutReleaseDate : Option String
  metaDatePublished : Option String
  bodyReleasedMatches : List String
  about : String

/-- First ld+json script tag carrying a truthy `datePublished`
(src/index.js:97-109; the `foundDate` guard makes the first one win). -/
def firstLdJsonDate (p : AlbumPage) : Option String :=
  p.ldJson.findSome? (fun o => match o with
    | some s => if s = "" then none else some s
    | none => none)

/-- The date-resolution chain of `scrapeBandcamp` (src/index.js:91-193),
translated statement by statement.  `parse` is the host's `new Date(string)`
(`none` = `Invalid Date`); the result is the final `releaseDate`, which the
code forces to be valid by falling back to `now`.  State is the pair
`(foundDate, releaseDate)` where `releaseDate : Option (Option Nat)` is
`none` while the variable is still `undefined`. -/
def resolveDate (parse : String → Option Nat) (now : Nat) (p : AlbumPage) : Nat :=
  -- strategy 1: ld+json datePublished
  let st1 : Bool × Option (Option Nat) :=
    match firstLdJsonDate p with
    | some s => (true, some (parse s))
    | none => (false, none)
  -- strategy 2: "released <Month> <Day>, <Year>" in the credits region
  let st2 : Bool × Option (Option Nat) :=
    if st1.1 then st1 else
      match p.creditsReleasedMatch with
      | some s => (true, some (parse s))
      | none => st1
  -- strategy 3: trimmed text of the about-release-date element (truthy check)
  let st3 : Bool × Option (Option Nat) :=
    if st2.1 then st2 else
      match p.aboutReleaseDate with
      | some s => if s = "" then st2 else (true, some (parse s))
      | none => st2
  -- `!foundDate || !releaseDate || isNaN(releaseDate.getTime())` at line 145
  let retry : Bool :=
    !st3.1 || (match st3.2 with | some (some _) => false | _ => true)
  -- strategy 4: datePublished meta tag (runs when `retry`)
  let st4 : Bool × Option (Option Nat) :=
    if retry then
      match p.metaDatePublished with
      | some c => if c = "" then st3 else (true, some (parse c))
      | none => st3
    else st3
  -- strategy 5: first "released ..." match anywhere in the body text
  -- (inside the same `retry` block, guarded by the updated `!foundDate`)
  let st5 : Bool × Option (Option Nat) :=
    if retry && !st4.1 then
      match p.bodyReleasedMatches.head? with
      | some s => (true, some (parse s))
      | none => st4
    else st4
  -- final fallback at lines 190-193: use `now` when still unset or invalid
  match st5.2 with
  | some (some t) => t
  | _ => now

/-- One `.music-grid-item` of a Bandcamp listing page together with the
result of the secondary fetch of its album detail page
(src/index.js:73-88): `href` is the first `a`'s `href`, `title` the trimmed
`.title` text, `img` the first `img`'s `src` (or `""`), `artistOverride` the
trimmed `.artist-override` text, and `detail` is `none` when the
`axios.get(fullAlbumUrl)` of the detail page fails. -/
structure BandcampItem where
  href : String
  title : String
  img : String
  artistOverride : String
  detail : Option AlbumPage

/-- Description chosen on the success path (src/index.js:180-187): the album
notes, truncated to 297 characters plus `"..."` past 300, or the
`New release by ...` default when the notes are empty. -/
def bcDescription (artistOverride : String) (p : AlbumPage) : String :=
  if p.about = "" then
    "New release by " ++ (if artistOverride = "" then "artist" else artistOverride)
  else if 300 < jsLength p.about then jsTake p.about 297 ++ "..."
  else p.about

/-- Per-item processing of the `scrapeBandcamp` loop (src/index.js:73-227).
`none` means the item was skipped (`continue`) as a future release; the
detail-fetch-failure branch keeps the item with listing fields and `now`. -/
def bcProcessItem (parse : String → Option Nat) (now : Nat) (url : String)
    (it : BandcampItem) : Option Release :=
  let fullAlbumUrl := resolveAlbumUrl url it.href
  match it.detail with
  | none => some
      { title := it.title, url := fullAlbumUrl, date := some now, image := it.img,
        description := "New release by " ++
          (if it.artistOverride = "" then "artist" else it.artistOverride) }
  | some page =>
      let releaseDate := resolveDate parse now page
      -- src/index.js:195-202: a strictly future date drops the candidate
      if now < releaseDate then none
      else some
        { title := it.title, url := fullAlbumUrl, date := some releaseDate,
          image := it.img, description := bcDescription it.artistOverride page }

/-- Sort key of the comparator `(a, b) => b.date - a.date`
(src/index.js:230).  Every release reaching this sort carries a valid date,
so the `getD` default is never consulted there. -/
def dateKey (r : Release) : Nat :=
  r.date.getD 0

/-- Stable descending insertion: `r` is placed after every earlier element
with a strictly larger key and before the first element whose key is `≤`
its own, which is exactly the (unique) stable order the ES2019
`Array.prototype.sort` produces for this comparator. -/
def insertDesc (r : Release) : List Release → List Release
  | [] => [r]
  | x :: xs => if dateKey r < dateKey x then x :: insertDesc r xs else r :: x :: xs

/-- `releases.sort((a, b) => b.date - a.date)` (src/index.js:230) as a stable
descending sort. -/
def sortByDateDesc : List Release → List Release
  | [] => []
  | x :: xs => insertDesc x (sortByDateDesc xs)

/-- `scrapeBandcamp` of src/index.js:60-248.  `listing` is the result of the
listing-page fetch: `none` = the outer `axios.get(url)` failed (the catch at
line 239), `some items` = the `.music-grid-item` elements in document order,
each paired with its detail-page fetch result. -/
def scrapeBandcamp (parse : String → Option Nat) (now : Nat) (url : String)
    (maxReleases : Nat) (listing : Option (List BandcampItem)) : List Release :=
  match listing with
  | none =>
      [{ title := "Error Reading Bandcamp", url := url, date := some now,
         image := "", description := "Could not retrieve releases" }]
  | some albumItems =>
      let itemCount := min albumItems.length maxReleases
      let releases := (albumItems.take itemCount).filterMap (bcProcessItem parse now url)
      let sorted := sortByDateDesc releases
      if sorted.isEmpty then
        [{ title := "Sample Bandcamp Release", url := url, date := some now,
           image := "", description := "Demo release (no actual releases found)" }]
      else sorted

/-- One `.soundList__item` of a SoundCloud page (src/index.js:267-274):
trimmed `.soundTitle__title` text and its `href`, `.image__full` `src`
(or `""`), and the trimmed `.soundTitle__uploadTime` text. -/
structure SoundItem where
  title : String
  href : String
  img : String
  dateText : String

/-- Body of the SoundCloud `.each` callback (src/index.js:267-298) for one
item: `none` when the item is not pushed (missing title or URL).  A present
but unparseable `dateText` yields an `Invalid Date`, which the code keeps
(`date = none` in the model); an absent `dateText` yields `now`. -/
def scItemRelease (parse : String → Option Nat) (now : Nat) (it : SoundItem) :
    Option Release :=
  let date : Option Nat := if it.dateText = "" then some now else parse it.dateText
  if it.title = "" || it.href = "" then none
  else some
    { title := it.title,
      url := if jsStartsWith it.href "http" then it.href
             else "https://soundcloud.com" ++ it.href,
      date := date, image := it.img, description := "New track on SoundCloud" }

/-- The counting loop over sound items (src/index.js:266-298): iteration
stops (`return false`) once `count` reaches `maxReleases`; only pushed items
increment `count`. -/
def scLoop (parse : String → Option Nat) (now : Nat) (maxReleases : Nat) :
    List SoundItem → Nat → List Release
  | [], _ => []
  | it :: rest, count =>
    if maxReleases ≤ count then []
    else match scItemRelease parse now it with
      | some r => r :: scLoop parse now maxReleases rest (count + 1)
      | none => scLoop parse now maxReleases rest count

/-- `scrapeSoundcloud` of src/index.js:256-316.  `page` is the fetch result
(`none` = the `axios.get` failed). -/
def scrapeSoundcloud (parse : String → Option Nat) (now : Nat) (url : String)
    (maxReleases : Nat) (page : Option (List SoundItem)) : List Release :=
  match page with
  | none =>
      [{ title := "Error Reading SoundCloud", url := url, date := some now,
         image := "", description := "Could not retrieve releases" }]
  | some soundItems =>
      let releases := scLoop parse now maxReleases soundItems 0
      if releases.isEmpty then
        [{ title := "Sample SoundCloud Release", url := url, date := some now,
           image := "", description := "Demo release (no actual releases found)" }]
      else releases

/-- `scrapeSpotify` of src/index.js:324-334: always the single sample
candidate, independent of any page content. -/
def scrapeSpotify (now : Nat) (url : String) : List Release :=
  [{ title := "Sample Spotify Release", url := url, date := some now,
     image := "", description := "Demo release (Spotify requires authentication)" }]

/-- The `else` branch of `scrapeArtistReleases` (src/index.js:42-51): a
sample release for unrecognized platforms. -/
def scrapeOtherPlatform (now : Nat) (artistName : String) : List Release :=
  [{ title := "Sample Release", url := "https://example.com/sample-release",
     date := some now, image := "", description := "Demo release for " ++ artistName }]

/-- One artist record of a feed-group configuration file.  `maxReleases = 0`
models an absent/falsy `maxReleases` property (`artist.maxReleases || 2`
treats `0` and `undefined` alike). -/
structure Artist where
  name : String
  url : String
  maxReleases : Nat
deriving DecidableEq

/-- External world of one pipeline run: the fetched pages keyed by URL
(`none` = fetch failure), the host date parser and the clock. -/
structure ScrapeEnv where
  bandcampListing : String → Option (List BandcampItem)
  soundcloudPage : String → Option (List SoundItem)
  parse : String → Option Nat
  now : Nat

/-- `scrapeArtistReleases` of src/index.js:30-52: substring dispatch on the
artist URL in the priority order bandcamp → soundcloud → spotify → sample. -/
def scrapeArtistReleases (env : ScrapeEnv) (artist : Artist) : List Release :=
  let maxReleases := if artist.maxReleases = 0 then 2 else artist.maxReleases
  if containsSub artist.url "bandcamp.com" then
    scrapeBandcamp env.parse env.now artist.url maxReleases (env.bandcampListing artist.url)
  else if containsSub artist.url "soundcloud.com" then
    scrapeSoundcloud env.parse env.now artist.url maxReleases (env.soundcloudPage artist.url)
  else if containsSub artist.url "spotify.com" then
    scrapeSpotify env.now artist.url
  else
    scrapeOtherPlatform env.now artist.name

/-- One feed item as passed to `feed.addItem` (src/index.js:822-839), plus
the diagnostic item of the zero-release fallback.  `image` holds the
`{url, title, link}` triple when `release.image` is truthy. -/
structure FeedItem where
  title : String
  id : String
  link : String
  description : String
  authorName : String
  authorLink : String
  date : Option Nat
  image : Option (String × String × String)
deriving DecidableEq

/-- The per-release item construction of `generateFeedForFile`
(src/index.js:772-839): sanitized description/URLs, the image-wrapping
`enhancedDescription`, and the raw `title` (only the `img` `alt` text and the
image title use the sanitized title). -/
def mkFeedItem (artist : Artist) (r : Release) : FeedItem :=
  let safeDescription := sanitizeText
    (if r.description = "" then "New release by " ++ artist.name else r.description)
  let safeTitle := sanitizeText (artist.name ++ " - " ++ r.title)
  let safeUrl := sanitizeUrl r.url
  let safeImageUrl := if r.image = "" then "" else sanitizeUrl r.image
  let safeArtistUrl := sanitizeUrl artist.url
  let enhancedDescription :=
    if r.image = "" then safeDescription
    else "<p><img src=\"" ++ safeImageUrl ++ "\" alt=\"" ++ safeTitle ++
         "\" style=\"max-width:100%;\"></p>\n               <p>" ++
         safeDescription ++ "</p>"
  { title := artist.name ++ " - " ++ r.title,
    id := safeUrl, link := safeUrl,
    description := enhancedDescription,
    authorName := artist.name, authorLink := safeArtistUrl,
    date := r.date,
    image := if r.image = "" then none else some (safeImageUrl, safeTitle, safeUrl) }

/-- Feed items contributed by one artist: its scraped releases pass the
placeholder filter and each survivor is added (src/index.js:746-843). -/
def feedItemsForArtist (env : ScrapeEnv) (artist : Artist) : List FeedItem :=
  (filterRealReleases (scrapeArtistReleases env artist)).map (mkFeedItem artist)

/-- `totalReleaseCount` of src/index.js:740-846: the accumulated number of
real (post-filter) releases over all artists of the group. -/
def totalRealCount (env : ScrapeEnv) (artists : List Artist) : Nat :=
  (artists.map (fun a => (filterRealReleases (scrapeArtistReleases env a)).length)).sum

/-- The single diagnostic item of the minimal zero-release feed
(src/index.js:872-878). -/
def diagnosticItem (now : Nat) : FeedItem :=
  { title := "No Releases Found",
    id := "https://github.com/user/artist-rss-feed-generator/no-releases-" ++ toString now,
    link := "https://github.com/user/artist-rss-feed-generator",
    description := "No releases were found for the configured artists. Please check your artists list.",
    authorName := "", authorLink := "", date := some now, image := none }

/-- The emitted feed document: channel metadata plus the ordered item list
(the XML serialization layer, including the manual re-serialization fallback,
emits exactly these items in this order). -/
structure FeedDocument where
  title : String
  description : String
  items : List FeedItem
deriving DecidableEq

/-- `generateFeedForFile` of src/index.js:702-953, at the level of the
document it writes: `none` when `artists` is empty (the early return at line
720 writes nothing); otherwise the minimal one-item diagnostic feed when
`totalReleaseCount === 0`, or the accumulated items of all artists in
configuration order. -/
def generateFeedForFile (env : ScrapeEnv) (feedTitle feedDescription : String)
    (artists : List Artist) : Option FeedDocument :=
  if artists.isEmpty then none
  else if totalRealCount env artists = 0 then
    some { title := feedTitle, description := feedDescription,
           items := [diagnosticItem env.now] }
  else
    some { title := feedTitle, description := feedDescription,
           items := artists.flatMap (feedItemsForArtist env) }

/-- JS `s.replace(pat, '')` with a *string* pattern: only the first
occurrence of `pat` is removed. -/
def stripFirstOcc (pat : List Char) : List Char → List Char
  | [] => []
  | c :: rest =>
    if pat.isPrefixOf (c :: rest) then (c :: rest).drop pat.length
    else c :: stripFirstOcc pat rest

/-- `dateText.replace('released ', '')` of src/unnamed/part_000:79. -/
def stripReleased (s : String) : String :=
  ⟨stripFirstOcc "released ".toList s.toList⟩

/-- One hyperlink (`a` element) of a fetched page: its `href` attribute
(`$(el).attr('href') || ''`) and its raw text content. -/
structure Link where
  href : String
  text : String
deriving DecidableEq

/-- One `.music-grid-item` of the legacy Bandcamp scraper
(src/unnamed/part_000:64-73): trimmed `.title` text, `a` `href`, `img` `src`,
and the trimmed texts of `.release-date` and `.datetime`. -/
structure LegacyGridItem where
  title : String
  href : String
  img : String
  releaseDateText : String
  datetimeText : String

/-- One `.collection-item-container` of the alternate legacy Bandcamp
selector (src/unnamed/part_000:109-114). -/
structure LegacyCollectionItem where
  title : String
  href : String
  img : String

/-- The legacy Bandcamp listing page: both selector families live on the
same fetched document. -/
structure LegacyBandcampPage where
  gridItems : List LegacyGridItem
  collectionItems : List LegacyCollectionItem

/-- One `.soundList__item` of the legacy SoundCloud scraper
(src/unnamed/part_000:163-168). -/
structure LegacySoundItem where
  title : String
  href : String
  img : String
  dateText : String

/-- One `.trackList__item` of the alternate legacy SoundCloud selector
(src/unnamed/part_000:204-208): `titleHref` is the title element's own
`href`, `anyHref` the first `a`'s `href` (the `||` fallback). -/
structure LegacyTrackItem where
  title : String
  titleHref : String
  anyHref : String

/-- The legacy SoundCloud page: both selector families on one document. -/
structure LegacySoundcloudPage where
  soundItems : List LegacySoundItem
  trackItems : List LegacyTrackItem

/-- External world of the legacy script (src/unnamed/part_000).  Fetch
results are `Except`: `.error msg` carries the `error.message` interpolated
into the fallback descriptions.  `resolve` is `new URL(href, url).toString()`
for the fixed base `url` (`none` = the constructor throws). -/
structure LegacyEnv where
  bandcampPage : String → Except String LegacyBandcampPage
  soundcloudPage : String → Except String LegacySoundcloudPage
  pageLinks : String → Except String (List Link)
  resolve : String → Option String
  parse : String → Option Nat
  now : Nat

/-- Legacy Bandcamp URL absolutization (src/unnamed/part_000:93): a trailing
slash of the base is dropped before concatenation. -/
def legacyBcUrl (base href : String) : String :=
  if jsStartsWith href "http" then href
  else (if jsEndsWith base "/" then ⟨base.toList.dropLast⟩ else base) ++ href

/-- One grid item of the legacy Bandcamp loop (src/unnamed/part_000:64-102):
`.release-date` text, else `.datetime` text; a parseable date (after
stripping `released `) is used, anything else falls back to `now`. -/
def legacyBcGridRelease (parse : String → Option Nat) (now : Nat)
    (base name : String) (it : LegacyGridItem) : Option Release :=
  let dateText := if it.releaseDateText = "" then it.datetimeText else it.releaseDateText
  let date : Nat :=
    if dateText = "" then now
    else (parse (stripReleased dateText)).getD now
  if it.title = "" || it.href = "" then none
  else some
    { title := it.title, url := legacyBcUrl base it.href, date := some date,
      image := it.img, description := "Release by " ++ name ++ ": " ++ it.title }

/-- One collection item of the alternate legacy Bandcamp selector
(src/unnamed/part_000:109-127). -/
def legacyBcCollectionRelease (now : Nat) (base name : String)
    (it : LegacyCollectionItem) : Option Release :=
  if it.title = "" || it.href = "" then none
  else some
    { title := it.title, url := legacyBcUrl base it.href, date := some now,
      image := it.img, description := "Release by " ++ name ++ ": " ++ it.title }

/-- `scrapeBandcamp` of src/unnamed/part_000:56-147: primary grid selector,
alternate collection selector only when the primary yields zero, then the
"No Releases Found" placeholder, with the fetch-error fallback. -/
def legacyScrapeBandcamp (env : LegacyEnv) (url name : String) : List Release :=
  match env.bandcampPage url with
  | .error msg =>
      [{ title := "Error Reading Bandcamp", url := url, date := some env.now, image := "",
         description := "Error fetching Bandcamp releases for " ++ name ++ ": " ++ msg }]
  | .ok page =>
      let releases := page.gridItems.filterMap (legacyBcGridRelease env.parse env.now url name)
      let releases :=
        if releases.isEmpty then
          page.collectionItems.filterMap (legacyBcCollectionRelease env.now url name)
        else releases
      if releases.isEmpty then
        [{ title := "No Releases Found", url := url, date := some env.now, image := "",
           description := "Could not find any releases for " ++ name ++
             " on Bandcamp. Check back later!" }]
      else releases

/-- One sound item of the legacy SoundCloud loop (src/unnamed/part_000:163-197);
an unparseable `dateText` falls back to `now` here. -/
def legacyScSoundRelease (parse : String → Option Nat) (now : Nat) (name : String)
    (it : LegacySoundItem) : Option Release :=
  let date : Nat := if it.dateText = "" then now else (parse it.dateText).getD now
  if it.title = "" || it.href = "" then none
  else some
    { title := it.title,
      url := if jsStartsWith it.href "http" then it.href
             else "https://soundcloud.com" ++ it.href,
      date := some date, image := it.img,
      description := "Track by " ++ name ++ ": " ++ it.title }

/-- One track item of the alternate legacy SoundCloud selector
(src/unnamed/part_000:204-217); the pushed object has no `image` property. -/
def legacyScTrackRelease (now : Nat) (name : String) (it : LegacyTrackItem) :
    Option Release :=
  let href := if it.titleHref = "" then it.anyHref else it.titleHref
  if it.title = "" || href = "" then none
  else some
    { title := it.title,
      url := if jsStartsWith href "http" then href
             else "https://soundcloud.com" ++ href,
      date := some now, image := "",
      description := "Track by " ++ name ++ ": " ++ it.title }

/-- `scrapeSoundcloud` of src/unnamed/part_000:155-241. -/
def legacyScrapeSoundcloud (env : LegacyEnv) (url name : String) : List Release :=
  match env.soundcloudPage url with
  | .error msg =>
      [{ title := "Error Reading SoundCloud", url := url, date := some env.now, image := "",
         description := "Error fetching SoundCloud tracks for " ++ name ++ ": " ++ msg }]
  | .ok page =>
      let releases := page.soundItems.filterMap (legacyScSoundRelease env.parse env.now name)
      let releases :=
        if releases.isEmpty then
          page.trackItems.filterMap (legacyScTrackRelease env.now name)
        else releases
      if releases.isEmpty then
        [{ title := "No Tracks Found", url := url, date := some env.now, image := "",
           description := "Could not find any tracks for " ++ name ++
             " on SoundCloud. Check back later!" }]
      else releases

/-- Body of the legacy Spotify `$('a').each` callback
(src/unnamed/part_000:259-282): album/track links with a usable title are
collected, deduplicated by URL. -/
def legacySpotifyStep (now : Nat) (name : String) (acc : List Release) (l : Link) :
    List Release :=
  if containsSub l.href "/album/" || containsSub l.href "/track/" then
    let title := jsTrim l.text
    if title ≠ "" && 1 < jsLength title && !containsSub title "http" then
      let fullUrl := if jsStartsWith l.href "http" then l.href
                     else "https://open.spotify.com" ++ l.href
      if acc.any (fun r => r.url == fullUrl) then acc
      else acc ++ [{ title := title, url := fullUrl, date := some now, image := "",
                     description := "Release by " ++ name ++ ": " ++ title }]
    else acc
  else acc

/-- `scrapeSpotify` of src/unnamed/part_000:249-308: collected links are
post-filtered (no `spotify`/`cookie`/`sign in` in the lowercased title) and
truncated to 5, with a placeholder when nothing remains. -/
def legacyScrapeSpotify (env : LegacyEnv) (url name : String) : List Release :=
  match env.pageLinks url with
  | .error _ =>
      [{ title := "Spotify Releases Available", url := url, date := some env.now, image := "",
         description := "Visit this link to see " ++ name ++ "'s releases on Spotify" }]
  | .ok links =>
      let releases := links.foldl (legacySpotifyStep env.now name) []
      let filteredReleases :=
        (releases.filter (fun r =>
          !containsSub (jsToLower r.title) "spotify" &&
          !containsSub (jsToLower r.title) "cookie" &&
          !containsSub (jsToLower r.title) "sign in")).take 5
      if filteredReleases.isEmpty then
        [{ title := "Spotify Releases", url := url, date := some env.now, image := "",
           description := "Visit Spotify to see releases from " ++ name }]
      else filteredReleases

/-- The release-indicating keyword set of the generic scraper
(src/unnamed/part_000:324). -/
def releaseKeywords : List String :=
  ["album", "single", "ep", "release", "track", "song", "music"]

/-- The acceptance test of the generic scraper's `$('a').each` callback
(src/unnamed/part_000:332-336): truthy text and href, trimmed text length in
(3, 100), and a keyword in the lowercased href or text. -/
def genericAccepts (l : Link) : Bool :=
  let text := jsTrim l.text
  text ≠ "" && l.href ≠ "" && 3 < jsLength text && jsLength text < 100 &&
  releaseKeywords.any (fun k =>
    containsSub (jsToLower l.href) k || containsSub (jsToLower text) k)

/-- Body of the generic `$('a').each` callback (src/unnamed/part_000:327-363):
accepted links are absolutized (`new URL(href, url)`, falling back to the
artist URL when that throws) and deduplicated by URL *or* title. -/
def genericStep (resolve : String → Option String) (now : Nat) (url name : String)
    (acc : List Release) (l : Link) : List Release :=
  if genericAccepts l then
    let text := jsTrim l.text
    let absoluteUrl := if jsStartsWith l.href "http" then l.href
                       else (resolve l.href).getD url
    if acc.any (fun r => r.url == absoluteUrl || r.title == text) then acc
    else acc ++ [{ title := text, url := absoluteUrl, date := some now, image := "",
                   description := "Possible release by " ++ name ++ ": " ++ text }]
  else acc

/-- `scrapeGeneric` of src/unnamed/part_000:316-378: scan every hyperlink,
keep the first three deduplicated matches (note: no placeholder when zero
matches — the result may be empty), with the fetch-error fallback. -/
def scrapeGeneric (env : LegacyEnv) (url name : String) : List Release :=
  match env.pageLinks url with
  | .error _ =>
      [{ title := "Visit Artist Page", url := url, date := some env.now, image := "",
         description := "Visit this link to see " ++ name ++ "'s releases" }]
  | .ok links =>
      (links.foldl (genericStep env.resolve env.now url name) []).take 3

/-- `scrapeArtistReleases` of src/unnamed/part_000:23-48: the same substring
dispatch as the current script, but with the generic scraper as the final
fallback.  (The surrounding try/catch is unreachable in the model: every
scraper catches its own errors.) -/
def legacyScrapeArtistReleases (env : LegacyEnv) (artist : Artist) : List Release :=
  if containsSub artist.url "bandcamp.com" then
    legacyScrapeBandcamp env artist.url artist.name
  else if containsSub artist.url "soundcloud.com" then
    legacyScrapeSoundcloud env artist.url artist.name
  else if containsSub artist.url "spotify.com" then
    legacyScrapeSpotify env artist.url artist.name
  else
    scrapeGeneric env artist.url artist.name

/-- The date-resolution chain as claim C4 words it: an ordered list of
candidate date texts, the first *parseable* one wins, and `now` when all
strategies fail.  (Spec-side definition, for comparison with `resolveDate`.) -/
def specStrategyTexts (p : AlbumPage) : List String :=
  [firstLdJsonDate p,
   p.creditsReleasedMatch,
   (match p.aboutReleaseDate with
    | some s => if s = "" then none else some s
    | none => none),
   (match p.metaDatePublished with
    | some c => if c = "" then none else some c
    | none => none),
   p.bodyReleasedMatches.head?].filterMap id

/-- Spec-side resolver: first strategy text that parses wins; unparseable
texts are skipped in favour of the next strategy; `now` when none parses. -/
def specResolveDate (parse : String → Option Nat) (now : Nat) (p : AlbumPage) : Nat :=
  (((specStrategyTexts p).filterMap parse).head?).getD now

/-- Per-character view of the five-entity escape. -/
def escChar (c : Char) : List Char :=
  if c = '&' then "&amp;".toList
  else if c = '<' then "&lt;".toList
  else if c = '>' then "&gt;".toList
  else if c = '"' then "&quot;".toList
  else if c = '\'' then "&apos;".toList
  else [c]

/-- Per-character view of the URL sanitization (five entities plus `=`). -/
def escUrlChar (c : Char) : List Char :=
  replaceChar '=' ("%3D".toList) (escChar c)

/-- Descending order by date, the claimed feed ordering. -/
def sortedDescByDate (l : List Release) : Prop :=
  l.Pairwise (fun a b => dateKey b ≤ dateKey a)

/-- Pairwise distinctness in both URL and title — what the generic scraper's
URL-or-title dedup check guarantees. -/
def distinctUrlTitle (l : List Release) : Prop :=
  l.Pairwise (fun a b => a.url ≠ b.url ∧ a.title ≠ b.title)

/-- A date parser that accepts nothing (every string is `Invalid Date`). -/
def parseNone : String → Option Nat := fun _ => none

/-- An environment in which every fetch fails. -/
def envNone : ScrapeEnv :=
  { bandcampListing := fun _ => none, soundcloudPage := fun _ => none,
    parse := parseNone, now := 0 }

/-- A Spotify artist used to exercise the sample-release path. -/
def artistSpotifyW : Artist := ⟨"A", "https://open.spotify.com/artist/1", 0⟩

/-- Parser for the future-dated SoundCloud instance. -/
def parseC2 : String → Option Nat :=
  fun s => if s == "in the future" then some 105 else none

/-- A SoundCloud item whose upload time parses to a future date. -/
def soundItemC2 : SoundItem := ⟨"Future Song", "/f", "", "in the future"⟩

/-- Parser that accepts only the credits-style date text. -/
def parseC4 : String → Option Nat :=
  fun s => if s == "March 1, 2024" then some 777 else none

/-- A detail page whose ld+json date is unparseable but whose credits region
holds a perfectly good date. -/
def pageC4 : AlbumPage := ⟨[some "garbage"], some "March 1, 2024", none, none, [], ""⟩

/-- Parser for the Scenario B instance. -/
def parseScenB : String → Option Nat :=
  fun s => if s == "2024-03-01" then some 424 else none

/-- The Scenario B detail page: a `datePublished` meta tag and nothing else. -/
def pageScenB : AlbumPage := ⟨[], none, none, some "2024-03-01", [], ""⟩

/-- Parser for the two concrete meta-tag dates used below. -/
def parseC8 : String → Option Nat :=
  fun s => if s == "2020-01-10" then some 10
           else if s == "2020-01-05" then some 5 else none

/-- Detail page resolving to epoch 10. -/
def pageC8a : AlbumPage := ⟨[], none, none, some "2020-01-10", [], ""⟩

/-- Detail page resolving to epoch 5. -/
def pageC8b : AlbumPage := ⟨[], none, none, some "2020-01-05", [], ""⟩

/-- Scenario A listing: five grid items, only the first two of which will be
processed under `maxReleases = 2`. -/
def listingC8 : List BandcampItem :=
  [⟨"/album/a1", "Alpha", "", "", some pageC8a⟩,
   ⟨"/album/a2", "Beta", "", "", some pageC8b⟩,
   ⟨"/album/a3", "Gamma", "", "", none⟩,
   ⟨"/album/a4", "Delta", "", "", none⟩,
   ⟨"/album/a5", "Epsilon", "", "", none⟩]

/-- One grid item that a listing page exposes twice (same `href`). -/
def itemC6 : BandcampItem := ⟨"/album/x", "Cool Album", "", "", some pageC8b⟩

/-- Environment whose Bandcamp listing contains the same album twice. -/
def envC6 : ScrapeEnv :=
  { bandcampListing := fun u =>
      if u == "https://d.bandcamp.com/music" then some [itemC6, itemC6] else none,
    soundcloudPage := fun _ => none, parse := parseC8, now := 100 }

/-- The artist owning the duplicated listing. -/
def artistC6 : Artist := ⟨"D", "https://d.bandcamp.com/music", 2⟩

/-- The release both duplicated grid items resolve to. -/
def relC6 : Release :=
  ⟨"Cool Album", "https://d.bandcamp.com/album/x", some 5, "", "New release by artist"⟩

/-- First artist's single (older) release item. -/
def itemC7a : BandcampItem := ⟨"/album/p", "Older Album", "", "", some pageC8b⟩

/-- Second artist's single (newer) release item. -/
def itemC7b : BandcampItem := ⟨"/album/q", "Newer Album", "", "", some pageC8a⟩

/-- Environment for the cross-artist ordering instance: artist 1 has the
older release (epoch 5), artist 2 the newer one (epoch 10). -/
def envC7 : ScrapeEnv :=
  { bandcampListing := fun u =>
      if u == "https://a1.bandcamp.com/music" then some [itemC7a]
      else if u == "https://a2.bandcamp.com/music" then some [itemC7b] else none,
    soundcloudPage := fun _ => none, parse := parseC8, now := 100 }

/-- The two artists of the ordering instance, in configuration order. -/
def artistC7a : Artist := ⟨"A1", "https://a1.bandcamp.com/music", 2⟩

/-- Second artist of the ordering instance. -/
def artistC7b : Artist := ⟨"A2", "https://a2.bandcamp.com/music", 2⟩

/-- The items of the feed generated for the ordering instance. -/
def itemsC7 : List FeedItem :=
  ((generateFeedForFile envC7 "t" "d" [artistC7a, artistC7b]).getD ⟨"", "", []⟩).items

/-- Legacy environment for the dispatch counterexample: the crafted URL's
page has no hyperlinks at all. -/
def envC9 : LegacyEnv :=
  { bandcampPage := fun _ => .error "x", soundcloudPage := fun _ => .error "x",
    pageLinks := fun u =>
      if u == "https://evil.example.org/spotify.com" then .ok [] else .error "x",
    resolve := fun _ => none, parse := parseNone, now := 7 }

/-- An artist whose URL has `spotify.com` in its path but not in its host. -/
def artistC9 : Artist := ⟨"E", "https://evil.example.org/spotify.com", 0⟩

/-- A hyperlink the generic scraper accepts (keyword `album` in its text). -/
def linkC9w : Link := ⟨"https://myspace.example.net/music/one", "Great Album One"⟩

/-- Legacy environment for the generic-scraper witness. -/
def envC9w : LegacyEnv :=
  { bandcampPage := fun _ => .error "x", soundcloudPage := fun _ => .error "x",
    pageLinks := fun u =>
      if u == "https://myspace.example.net/band" then .ok [linkC9w] else .error "x",
    resolve := fun _ => none, parse := parseNone, now := 7 }

/-- An artist on a platform none of the three scrapers recognize. -/
def artistC9w : Artist := ⟨"W", "https://myspace.example.net/band", 0⟩

/-- A real Bandcamp release item for the C10 counterexample. -/
def itemC10 : BandcampItem := ⟨"/album/r", "Real Thing", "", "", some pageC8b⟩

/-- Environment whose Bandcamp listing holds one real release for the
crafted bandcamp+spotify URL. -/
def envC10 : ScrapeEnv :=
  { bandcampListing := fun u =>
      if u == "https://x.bandcamp.com/music?from=spotify.com" then some [itemC10]
      else none,
    soundcloudPage := fun _ => none, parse := parseC8, now := 100 }

/-- An artist whose URL contains both `bandcamp.com` and `spotify.com`. -/
def artistC10 : Artist := ⟨"X", "https://x.bandcamp.com/music?from=spotify.com", 2⟩

/-- A placeholder candidate (marker word `Demo` in the title). -/
def demoRelC3 : Release := ⟨"Demo Release", "https://a.b/c", some 1, "", "x"⟩

/-- A real candidate that survives the placeholder filter. -/
def realRelC3 : Release := ⟨"Great Album", "https://a.b/c", some 3, "", "d"⟩

example : isRealRelease ⟨"Demo Release", "https://a.b/c", some 3, "", "d"⟩ = false := by decide
example : isRealRelease ⟨"Great Album", "https://example.com/x", some 3, "", "d"⟩ = false := by decide
example : isRealRelease ⟨"Great Album", "https://a.b/c", some 3, "", "d"⟩ = true := by decide

example : resolveAlbumUrl "https://x.bandcamp.com/music" "/album/a1" = "https://x.bandcamp.com/album/a1" := by decide
example : hostOf "https://evil.example.org/spotify.com" = "evil.example.org" := by decide

lemma replaceChar_cons (c : Char) (rep : List Char) (x : Char) (xs : List Char) :
    replaceChar c rep (x :: xs) =
      (if x = c then rep else [x]) ++ replaceChar c rep xs := by
  by_cases h : x = c <;> simp [replaceChar, h]

lemma replaceChar_append (c : Char) (rep : List Char) (a b : List Char) :
    replaceChar c rep (a ++ b) = replaceChar c rep a ++ replaceChar c rep b := by
  induction a with
  | nil => simp [replaceChar]
  | cons x xs ih => by_cases h : x = c <;> simp [replaceChar, h, ih]

lemma escapeXmlList_append (a b : List Char) :
    escapeXmlList (a ++ b) = escapeXmlList a ++ escapeXmlList b := by
  simp [escapeXmlList, replaceChar_append]

lemma escapeXmlList_cons (c : Char) (s : List Char) :
    escapeXmlList (c :: s) = escapeXmlList [c] ++ escapeXmlList s := by
  have h : (c :: s) = [c] ++ s := rfl
  rw [h, escapeXmlList_append]

lemma escapeXmlList_single (c : Char) : escapeXmlList [c] = escChar c := by
  by_cases h1 : c = '&'
  · subst h1; decide
  · by_cases h2 : c = '<'
    · subst h2; decide
    · by_cases h3 : c = '>'
      · subst h3; decide
      · by_cases h4 : c = '"'
        · subst h4; decide
        · by_cases h5 : c = '\''
          · subst h5; decide
          · simp [escapeXmlList, replaceChar, escChar, h1, h2, h3, h4, h5]

set_option maxHeartbeats 1000000 in
lemma unescape_cons_ne (c : Char) (t : List Char) (h : c ≠ '&') :
    unescapeXmlList (c :: t) = c :: unescapeXmlList t := by
  rw [unescapeXmlList.eq_def]
  split
  all_goals simp_all

lemma unescape_amp (t : List Char) :
    unescapeXmlList ('&' :: 'a' :: 'm' :: 'p' :: ';' :: t) = '&' :: unescapeXmlList t := by
  simp [unescapeXmlList]

lemma unescape_lt (t : List Char) :
    unescapeXmlList ('&' :: 'l' :: 't' :: ';' :: t) = '<' :: unescapeXmlList t := by
  simp [unescapeXmlList]

lemma unescape_gt (t : List Char) :
    unescapeXmlList ('&' :: 'g' :: 't' :: ';' :: t) = '>' :: unescapeXmlList t := by
  simp [unescapeXmlList]

lemma unescape_quot (t : List Char) :
    unescapeXmlList ('&' :: 'q' :: 'u' :: 'o' :: 't' :: ';' :: t) = '"' :: unescapeXmlList t := by
  simp [unescapeXmlList]

lemma unescape_apos (t : List Char) :
    unescapeXmlList ('&' :: 'a' :: 'p' :: 'o' :: 's' :: ';' :: t) = '\'' :: unescapeXmlList t := by
  simp [unescapeXmlList]

lemma unescape_escChar (c : Char) (t : List Char) :
    unescapeXmlList (escChar c ++ t) = c :: unescapeXmlList t := by
  by_cases h1 : c = '&'
  · subst h1
    have : escChar '&' = "&amp;".toList := rfl
    rw [this]
    exact unescape_amp t
  · by_cases h2 : c = '<'
    · subst h2; exact unescape_lt t
    · by_cases h3 : c = '>'
      · subst h3; exact unescape_gt t
      · by_cases h4 : c = '"'
        · subst h4; exact unescape_quot t
        · by_cases h5 : c = '\''
          · subst h5; exact unescape_apos t
          · have he : escChar c = [c] := by simp [escChar, h1, h2, h3, h4, h5]
            rw [he]
            exact unescape_cons_ne c t h1

/-- Round trip of the five-entity escape at the character-list level. -/
lemma unescape_escape_list (s : List Char) :
    unescapeXmlList (escapeXmlList s) = s := by
  induction s with
  | nil => rfl
  | cons c cs ih =>
    rw [escapeXmlList_cons, escapeXmlList_single, unescape_escChar, ih]

lemma sanitizeUrl_list_cons (c : Char) (s : List Char) :
    replaceChar '=' ("%3D".toList) (escapeXmlList (c :: s)) =
      escUrlChar c ++ replaceChar '=' ("%3D".toList) (escapeXmlList s) := by
  rw [escapeXmlList_cons, replaceChar_append, escapeXmlList_single, escUrlChar]

lemma unescape_escUrlChar (c : Char) (t : List Char) :
    unescapeXmlList (escUrlChar c ++ t) =
      (if c = '=' then "%3D".toList else [c]) ++ unescapeXmlList t := by
  by_cases h0 : c = '='
  · subst h0
    have he : escUrlChar '=' = "%3D".toList := by decide
    rw [he, if_pos rfl]
    show unescapeXmlList ('%' :: '3' :: 'D' :: t) = '%' :: '3' :: 'D' :: unescapeXmlList t
    rw [unescape_cons_ne '%' _ (by decide), unescape_cons_ne '3' _ (by decide),
        unescape_cons_ne 'D' _ (by decide)]
  · rw [if_neg h0]
    have he : escUrlChar c = escChar c := by
      by_cases h1 : c = '&'
      · subst h1; decide
      · by_cases h2 : c = '<'
        · subst h2; decide
        · by_cases h3 : c = '>'
          · subst h3; decide
          · by_cases h4 : c = '"'
            · subst h4; decide
            · by_cases h5 : c = '\''
              · subst h5; decide
              · simp [escUrlChar, escChar, replaceChar, h0, h1, h2, h3, h4, h5]
    rw [he, unescape_escChar]
    rfl

/-- Decoding the URL sanitization returns the original with every `=`
replaced by `%3D` (the percent-encoding is not an XML entity and survives). -/
lemma unescape_sanitizeUrl_list (s : List Char) :
    unescapeXmlList (replaceChar '=' ("%3D".toList) (escapeXmlList s)) =
      replaceChar '=' ("%3D".toList) s := by
  induction s with
  | nil => rfl
  | cons c cs ih =>
    rw [sanitizeUrl_list_cons, unescape_escUrlChar, ih, replaceChar_cons]

lemma mem_insertDesc {a r : Release} {l : List Release} :
    a ∈ insertDesc r l ↔ a = r ∨ a ∈ l := by
  induction l with
  | nil => simp [insertDesc]
  | cons x xs ih =>
    by_cases h : dateKey r < dateKey x
    · simp only [insertDesc, if_pos h, List.mem_cons, ih]
      tauto
    · simp only [insertDesc, if_neg h, List.mem_cons]

lemma mem_sortByDateDesc {a : Release} {l : List Release} :
    a ∈ sortByDateDesc l ↔ a ∈ l := by
  induction l with
  | nil => simp [sortByDateDesc]
  | cons x xs ih => simp [sortByDateDesc, mem_insertDesc, ih]

lemma length_insertDesc (r : Release) (l : List Release) :
    (insertDesc r l).length = l.length + 1 := by
  induction l with
  | nil => rfl
  | cons x xs ih =>
    by_cases h : dateKey r < dateKey x <;> simp [insertDesc, h, ih]

lemma length_sortByDateDesc (l : List Release) :
    (sortByDateDesc l).length = l.length := by
  induction l with
  | nil => rfl
  | cons x xs ih => simp [sortByDateDesc, length_insertDesc, ih]

lemma sortedDescByDate_insertDesc {r : Release} {l : List Release}
    (h : sortedDescByDate l) : sortedDescByDate (insertDesc r l) := by
  induction l with
  | nil => simp [insertDesc, sortedDescByDate]
  | cons x xs ih =>
    rcases (List.pairwise_cons.mp h) with ⟨hx, hxs⟩
    by_cases hk : dateKey r < dateKey x
    · rw [insertDesc, if_pos hk]
      refine List.pairwise_cons.mpr ⟨?_, ih hxs⟩
      intro y hy
      rcases mem_insertDesc.mp hy with rfl | hy'
      · exact Nat.le_of_lt hk
      · exact hx y hy'
    · rw [insertDesc, if_neg hk]
      refine List.pairwise_cons.mpr ⟨?_, h⟩
      intro y hy
      rcases List.mem_cons.mp hy with rfl | hy'
      · exact Nat.le_of_not_lt hk
      · exact le_trans (hx y hy') (Nat.le_of_not_lt hk)

lemma sortedDescByDate_sortByDateDesc (l : List Release) :
    sortedDescByDate (sortByDateDesc l) := by
  induction l with
  | nil => simp [sortByDateDesc, sortedDescByDate]
  | cons x xs ih => exact sortedDescByDate_insertDesc ih

lemma insertDesc_front {x : Release} {l : List Release}
    (h : ∀ y ∈ l, dateKey y ≤ dateKey x) : insertDesc x l = x :: l := by
  cases l with
  | nil => rfl
  | cons y ys =>
    have : ¬ dateKey x < dateKey y :=
      Nat.not_lt.mpr (h y (List.mem_cons_self y ys))
    rw [insertDesc, if_neg this]

/-- Stability corollary: a list already in (weakly) descending order is left
exactly as it is — ties keep their original insertion order. -/
lemma sortByDateDesc_of_sorted {l : List Release} (h : sortedDescByDate l) :
    sortByDateDesc l = l := by
  induction l with
  | nil => rfl
  | cons x xs ih =>
    rcases (List.pairwise_cons.mp h) with ⟨hx, hxs⟩
    rw [sortByDateDesc, ih hxs]
    exact insertDesc_front hx

/-- Every release returned by the Bandcamp scraper carries a valid date that
is not in the future: resolved dates pass the `releaseDate > now` skip, and
every fallback uses `now` itself. -/
lemma scrapeBandcamp_mem_date {parse : String → Option Nat} {now : Nat}
    {url : String} {maxR : Nat} {listing : Option (List BandcampItem)} {r : Release}
    (h : r ∈ scrapeBandcamp parse now url maxR listing) :
    ∃ t, r.date = some t ∧ t ≤ now := by
  cases listing with
  | none =>
    simp only [scrapeBandcamp, List.mem_singleton] at h
    subst h
    exact ⟨now, rfl, Nat.le_refl now⟩
  | some items =>
    simp only [scrapeBandcamp] at h
    split at h
    · simp only [List.mem_singleton] at h
      subst h
      exact ⟨now, rfl, Nat.le_refl now⟩
    · rw [mem_sortByDateDesc] at h
      rcases List.mem_filterMap.mp h with ⟨it, _, hproc⟩
      rw [bcProcessItem] at hproc
      cases hd : it.detail with
      | none =>
        rw [hd] at hproc
        simp only [Option.some.injEq] at hproc
        subst hproc
        exact ⟨now, rfl, Nat.le_refl now⟩
      | some page =>
        rw [hd] at hproc
        simp only at hproc
        split at hproc
        · exact absurd hproc (by simp)
        · simp only [Option.some.injEq] at hproc
          subst hproc
          exact ⟨resolveDate parse now page, rfl,
            Nat.le_of_not_lt (by assumption)⟩

/-- The Bandcamp scraper returns at most `maxReleases` releases (the
placeholder branches return one, covered by `1 ≤ maxR`). -/
lemma scrapeBandcamp_length_le {parse : String → Option Nat} {now : Nat}
    {url : String} {maxR : Nat} {listing : Option (List BandcampItem)}
    (h : 1 ≤ maxR) :
    (scrapeBandcamp parse now url maxR listing).length ≤ maxR := by
  cases listing with
  | none => simpa [scrapeBandcamp] using h
  | some items =>
    simp only [scrapeBandcamp]
    split
    · simpa using h
    · calc (sortByDateDesc ((items.take (min items.length maxR)).filterMap
              (bcProcessItem parse now url))).length
          = ((items.take (min items.length maxR)).filterMap
              (bcProcessItem parse now url)).length := length_sortByDateDesc _
        _ ≤ (items.take (min items.length maxR)).length :=
              List.length_filterMap_le _ _
        _ ≤ min items.length maxR := by
              rw [List.length_take]; exact Nat.min_le_left _ _
        _ ≤ maxR := Nat.min_le_right _ _

lemma genericStep_mem {resolve : String → Option String} {now : Nat}
    {url name : String} {acc : List Release} {l : Link} {r : Release}
    (h : r ∈ genericStep resolve now url name acc l) :
    r ∈ acc ∨ (genericAccepts l = true ∧ r.title = jsTrim l.text) := by
  rw [genericStep] at h
  by_cases hacc : genericAccepts l = true
  · rw [if_pos hacc] at h
    dsimp only at h
    by_cases hs : jsStartsWith l.href "http" = true
    · rw [if_pos hs] at h
      split at h
      · exact Or.inl h
      · rcases List.mem_append.mp h with h' | h'
        · exact Or.inl h'
        · simp only [List.mem_singleton] at h'
          subst h'
          exact Or.inr ⟨hacc, rfl⟩
    · rw [if_neg hs] at h
      split at h
      · exact Or.inl h
      · rcases List.mem_append.mp h with h' | h'
        · exact Or.inl h'
        · simp only [List.mem_singleton] at h'
          subst h'
          exact Or.inr ⟨hacc, rfl⟩
  · rw [if_neg hacc] at h
    exact Or.inl h

lemma foldl_genericStep_mem {resolve : String → Option String} {now : Nat}
    {url name : String} {links : List Link} {acc : List Release} {r : Release}
    (h : r ∈ links.foldl (genericStep resolve now url name) acc) :
    r ∈ acc ∨ ∃ l ∈ links, genericAccepts l = true ∧ r.title = jsTrim l.text := by
  induction links generalizing acc with
  | nil => exact Or.inl h
  | cons l ls ih =>
    rcases ih h with h' | ⟨l', hl', hacc⟩
    · rcases genericStep_mem h' with h'' | h''
      · exact Or.inl h''
      · exact Or.inr ⟨l, List.mem_cons_self l ls, h''⟩
    · exact Or.inr ⟨l', List.mem_cons_of_mem l hl', hacc⟩

lemma pushDedup_distinct {acc : List Release} {x : Release}
    (h : distinctUrlTitle acc)
    (hdup : ¬ (acc.any fun r => r.url == x.url || r.title == x.title) = true) :
    distinctUrlTitle (acc ++ [x]) := by
  rw [distinctUrlTitle, List.pairwise_append]
  refine ⟨h, List.pairwise_singleton _ _, ?_⟩
  intro a ha b hb
  simp only [List.mem_singleton] at hb
  subst hb
  simp only [List.any_eq_true, not_exists, not_and, Bool.or_eq_true,
    beq_iff_eq, not_or] at hdup
  have := hdup a ha
  exact ⟨this.1, this.2⟩

lemma genericStep_distinct {resolve : String → Option String} {now : Nat}
    {url name : String} {acc : List Release} {l : Link}
    (h : distinctUrlTitle acc) :
    distinctUrlTitle (genericStep resolve now url name acc l) := by
  rw [genericStep]
  by_cases hacc : genericAccepts l = true
  · rw [if_pos hacc]
    dsimp only
    by_cases hs : jsStartsWith l.href "http" = true
    · rw [if_pos hs]
      split
      · exact h
      · exact pushDedup_distinct h (by assumption)
    · rw [if_neg hs]
      split
      · exact h
      · exact pushDedup_distinct h (by assumption)
  · rw [if_neg hacc]
    exact h

lemma foldl_genericStep_distinct {resolve : String → Option String} {now : Nat}
    {url name : String} {links : List Link} {acc : List Release}
    (h : distinctUrlTitle acc) :
    distinctUrlTitle (links.foldl (genericStep resolve now url name) acc) := by
  induction links generalizing acc with
  | nil => exact h
  | cons l ls ih => exact ih (genericStep_distinct h)

lemma distinctUrlTitle_take (n : Nat) {l : List Release}
    (h : distinctUrlTitle l) : distinctUrlTitle (l.take n) :=
  h.sublist (List.take_sublist n l)

/-- Membership decomposition for `filterRealReleases`. -/
lemma mem_filterRealReleases {r : Release} {l : List Release} :
    r ∈ filterRealReleases l ↔ r ∈ l ∧ isRealRelease r = true := by
  simp [filterRealReleases, List.mem_filter]

/-- Every item of an emitted feed document is either the diagnostic
placeholder or derives from a real (filter-surviving) release of one of the
group's artists. -/
lemma generateFeedForFile_items_shape {env : ScrapeEnv} {t d : String}
    {artists : List Artist} {doc : FeedDocument}
    (h : generateFeedForFile env t d artists = some doc) :
    ∀ it ∈ doc.items, it = diagnosticItem env.now ∨
      ∃ a ∈ artists, ∃ r ∈ scrapeArtistReleases env a,
        isRealRelease r = true ∧ it = mkFeedItem a r := by
  intro it hit
  rw [generateFeedForFile] at h
  split at h
  · exact absurd h (by simp)
  · split at h
    · simp only [Option.some.injEq] at h
      subst h
      simp only [List.mem_singleton] at hit
      exact Or.inl hit
    · simp only [Option.some.injEq] at h
      subst h
      simp only [List.mem_flatMap] at hit
      rcases hit with ⟨a, ha, hit⟩
      rw [feedItemsForArtist] at hit
      rcases List.mem_map.mp hit with ⟨r, hr, hmk⟩
      rcases mem_filterRealReleases.mp hr with ⟨hr', hreal⟩
      exact Or.inr ⟨a, ha, r, hr', hreal, hmk.symm⟩

lemma replaceChar_not_mem {c : Char} {rep l : List Char} (h : c ∉ l) :
    replaceChar c rep l = l := by
  induction l with
  | nil => rfl
  | cons x xs ih =>
    rw [replaceChar_cons]
    have hx : ¬ x = c := fun he => h (he ▸ List.mem_cons_self x xs)
    rw [if_neg hx, ih (fun hm => h (List.mem_cons_of_mem x hm))]
    rfl

/-- The generic scraper on a successfully fetched page: at most the first
three matches, pairwise distinct in URL and title, each arising from an
accepted hyperlink. -/
lemma scrapeGeneric_props (env : LegacyEnv) (url name : String)
    (links : List Link) (hf : env.pageLinks url = .ok links) :
    (scrapeGeneric env url name).length ≤ 3 ∧
    distinctUrlTitle (scrapeGeneric env url name) ∧
    ∀ r ∈ scrapeGeneric env url name,
      ∃ l ∈ links, genericAccepts l = true ∧ r.title = jsTrim l.text := by
  rw [scrapeGeneric, hf]
  dsimp only
  refine ⟨?_, ?_, ?_⟩
  · rw [List.length_take]
    exact Nat.min_le_left _ _
  · exact distinctUrlTitle_take 3
      (foldl_genericStep_distinct (List.Pairwise.nil))
  · intro r hr
    have hr' := List.mem_of_mem_take hr
    rcases foldl_genericStep_mem hr' with h' | h'
    · exact absurd h' (List.not_mem_nil r)
    · exact h'

lemma isRealRelease_eq_true_iff {r : Release} :
    isRealRelease r = true ↔
      containsSub r.title "Sample" = false ∧
      containsSub r.title "Error Reading" = false ∧
      containsSub r.title "Example" = false ∧
      containsSub r.title "Demo" = false ∧
      containsSub r.url "example.com" = false ∧
      containsSub r.url "." = true := by
  simp [isRealRelease]
  tauto

/-- C1: whenever the accumulated count of real (post-filter) releases over
all artists of a non-empty group is zero, the written feed document holds
exactly the single diagnostic item, whose title is "No Releases Found". -/
theorem thm_C1 (env : ScrapeEnv) (t d : String) (artists : List Artist)
    (hne : artists ≠ []) (hzero : totalRealCount env artists = 0) :
    generateFeedForFile env t d artists =
      some ⟨t, d, [diagnosticItem env.now]⟩ ∧
    (diagnosticItem env.now).title = "No Releases Found" := by
  refine ⟨?_, rfl⟩
  rw [generateFeedForFile, if_neg (by simpa [List.isEmpty_iff] using hne),
      if_pos hzero]

/-- Witness for C1: a one-artist Spotify group whose sample release is
filtered out, leaving zero real releases. -/
theorem thm_C1_witness :
    ([artistSpotifyW] ≠ ([] : List Artist) ∧
     totalRealCount envNone [artistSpotifyW] = 0) ∧
    (generateFeedForFile envNone "t" "d" [artistSpotifyW] =
       some ⟨"t", "d", [diagnosticItem envNone.now]⟩ ∧
     (diagnosticItem envNone.now).title = "No Releases Found") :=
  ⟨⟨by decide, by decide⟩,
   thm_C1 envNone "t" "d" [artistSpotifyW] (by decide) (by decide)⟩

/-- C2: every release emitted by the Bandcamp extractor has a valid publish
date `≤ now` (strictly future resolved dates are dropped, and every
fallback uses `now`), while the SoundCloud extractor — which performs no
detail-page resolution — passes a future-dated release straight through. -/
theorem thm_C2 :
    (∀ (parse : String → Option Nat) (now : Nat) (url : String) (maxR : Nat)
       (listing : Option (List BandcampItem)) (r : Release),
       r ∈ scrapeBandcamp parse now url maxR listing →
       ∃ t, r.date = some t ∧ t ≤ now) ∧
    (scrapeSoundcloud parseC2 100 "https://soundcloud.com/x" 2 (some [soundItemC2]) =
       [⟨"Future Song", "https://soundcloud.com/f", some 105, "",
         "New track on SoundCloud"⟩] ∧
     100 < 105) := by
  refine ⟨?_, by decide, by decide⟩
  intro parse now url maxR listing r h
  exact scrapeBandcamp_mem_date h

/-- Witness for C2: the fetch-error fallback release carries the clock value
itself. -/
theorem thm_C2_witness :
    ((⟨"Error Reading Bandcamp", "u", some 5, "",
       "Could not retrieve releases"⟩ : Release) ∈
       scrapeBandcamp parseNone 5 "u" 1 none) ∧
    (∃ t, (⟨"Error Reading Bandcamp", "u", some 5, "",
       "Could not retrieve releases"⟩ : Release).date = some t ∧ t ≤ 5) :=
  ⟨by decide, thm_C2.1 parseNone 5 "u" 1 none _ (by decide)⟩

/-- C3: the normalizer keeps a candidate only when its title contains none
of the marker words and its URL is neither an `example.com` URL nor
dot-free; in particular nothing titled "Demo Release" or located at
`https://example.com/x` survives, and every item of an emitted feed
document is the diagnostic placeholder or derives from a surviving
candidate. -/
theorem thm_C3 :
    (∀ (l : List Release) (r : Release), r ∈ filterRealReleases l →
       containsSub r.title "Sample" = false ∧
       containsSub r.title "Error Reading" = false ∧
       containsSub r.title "Example" = false ∧
       containsSub r.title "Demo" = false ∧
       containsSub r.url "example.com" = false ∧
       containsSub r.url "." = true) ∧
    (∀ (l : List Release) (r : Release), r ∈ filterRealReleases l →
       r.title ≠ "Demo Release" ∧ r.url ≠ "https://example.com/x") ∧
    (∀ (env : ScrapeEnv) (t d : String) (artists : List Artist)
       (doc : FeedDocument),
       generateFeedForFile env t d artists = some doc →
       ∀ it ∈ doc.items, it = diagnosticItem env.now ∨
         ∃ a ∈ artists, ∃ r ∈ scrapeArtistReleases env a,
           isRealRelease r = true ∧ it = mkFeedItem a r) := by
  refine ⟨?_, ?_, ?_⟩
  · intro l r h
    exact isRealRelease_eq_true_iff.mp (mem_filterRealReleases.mp h).2
  · intro l r h
    have hp := isRealRelease_eq_true_iff.mp (mem_filterRealReleases.mp h).2
    refine ⟨fun he => ?_, fun he => ?_⟩
    · have hd := hp.2.2.2.1
      rw [he] at hd
      exact absurd hd (by decide)
    · have hd := hp.2.2.2.2.1
      rw [he] at hd
      exact absurd hd (by decide)
  · intro env t d artists doc h
    exact generateFeedForFile_items_shape h

/-- Witness for C3: a surviving candidate next to a filtered `Demo Release`
one, plus the diagnostic-only document of the empty Spotify group. -/
theorem thm_C3_witness :
    (realRelC3 ∈ filterRealReleases [demoRelC3, realRelC3]) ∧
    (containsSub realRelC3.title "Sample" = false ∧
     containsSub realRelC3.title "Error Reading" = false ∧
     containsSub realRelC3.title "Example" = false ∧
     containsSub realRelC3.title "Demo" = false ∧
     containsSub realRelC3.url "example.com" = false ∧
     containsSub realRelC3.url "." = true) ∧
    (realRelC3.title ≠ "Demo Release" ∧ realRelC3.url ≠ "https://example.com/x") ∧
    (diagnosticItem envNone.now = diagnosticItem envNone.now ∨
       ∃ a ∈ [artistSpotifyW], ∃ r ∈ scrapeArtistReleases envNone a,
         isRealRelease r = true ∧ diagnosticItem envNone.now = mkFeedItem a r) :=
  ⟨by decide,
   thm_C3.1 [demoRelC3, realRelC3] realRelC3 (by decide),
   thm_C3.2.1 [demoRelC3, realRelC3] realRelC3 (by decide),
   thm_C3.2.2 envNone "t" "d" [artistSpotifyW] ⟨"t", "d", [diagnosticItem envNone.now]⟩
     (by decide) (diagnosticItem envNone.now) (by decide)⟩

/-- Counterexample to C4: on a detail page whose ld+json `datePublished` is
unparseable but whose credits region holds a good "released March 1, 2024"
date, the claimed first-parseable-strategy chain (`specResolveDate`) returns
the credits date, while the code (`resolveDate`) never consults the credits
strategy again (the unparseable ld+json hit set `foundDate`) and falls back
to `now`. -/
theorem thm_C4_cex :
    resolveDate parseC4 99 pageC4 = 99 ∧
    specResolveDate parseC4 99 pageC4 = 777 ∧
    resolveDate parseC4 99 pageC4 ≠ specResolveDate parseC4 99 pageC4 := by
  refine ⟨by decide, by decide, by decide⟩

/-- C4 (amended): the five strategies are consulted in the stated order, but
a strategy yielding any date text — parseable or not — marks the date as
found: strategies 2 and 3 run only when nothing was found before them, the
meta-tag strategy 4 is additionally retried when the date found so far is
unparseable, the body-text strategy 5 runs only when nothing was found at
all, and an absent or unparseable final candidate resolves to `now`.
Scenario B (a meta-tag-only page) resolves to the meta date. -/
theorem thm_C4_amended :
    (∀ (parse : String → Option Nat) (now : Nat) (p : AlbumPage) (s : String) (t : Nat),
       firstLdJsonDate p = some s → parse s = some t →
       resolveDate parse now p = t) ∧
    (∀ (parse : String → Option Nat) (now : Nat) (p : AlbumPage) (s c : String) (t : Nat),
       firstLdJsonDate p = some s → parse s = none →
       p.metaDatePublished = some c → c ≠ "" → parse c = some t →
       resolveDate parse now p = t) ∧
    (∀ (parse : String → Option Nat) (now : Nat) (p : AlbumPage) (s : String),
       firstLdJsonDate p = some s → parse s = none →
       p.metaDatePublished = none →
       resolveDate parse now p = now) ∧
    (∀ (parse : String → Option Nat) (now : Nat) (p : AlbumPage) (s : String) (t : Nat),
       firstLdJsonDate p = none → p.creditsReleasedMatch = some s → parse s = some t →
       resolveDate parse now p = t) ∧
    (∀ (parse : String → Option Nat) (now : Nat) (p : AlbumPage) (s : String) (t : Nat),
       firstLdJsonDate p = none → p.creditsReleasedMatch = none →
       p.aboutReleaseDate = some s → s ≠ "" → parse s = some t →
       resolveDate parse now p = t) ∧
    (∀ (parse : String → Option Nat) (now : Nat) (p : AlbumPage) (s : String) (t : Nat),
       firstLdJsonDate p = none → p.creditsReleasedMatch = none →
       p.aboutReleaseDate = none → p.metaDatePublished = some s → s ≠ "" →
       parse s = some t →
       resolveDate parse now p = t) ∧
    (∀ (parse : String → Option Nat) (now : Nat) (p : AlbumPage) (s : String) (t : Nat),
       firstLdJsonDate p = none → p.creditsReleasedMatch = none →
       p.aboutReleaseDate = none → p.metaDatePublished = none →
       p.bodyReleasedMatches.head? = some s → parse s = some t →
       resolveDate parse now p = t) ∧
    (∀ (parse : String → Option Nat) (now : Nat) (p : AlbumPage),
       firstLdJsonDate p = none → p.creditsReleasedMatch = none →
       p.aboutReleaseDate = none → p.metaDatePublished = none →
       p.bodyReleasedMatches.head? = none →
       resolveDate parse now p = now) ∧
    resolveDate parseScenB 999 pageScenB = 424 := by
  refine ⟨?_, ?_, ?_, ?_, ?_, ?_, ?_, ?_, by decide⟩
  · intro parse now p s t h1 h2
    simp [resolveDate, h1, h2]
  · intro parse now p s c t h1 h2 h3 h4 h5
    simp [resolveDate, h1, h2, h3, h4, h5]
  · intro parse now p s h1 h2 h3
    simp [resolveDate, h1, h2, h3]
  · intro parse now p s t h1 h2 h3
    simp [resolveDate, h1, h2, h3]
  · intro parse now p s t h1 h2 h3 h4 h5
    simp [resolveDate, h1, h2, h3, h4, h5]
  · intro parse now p s t h1 h2 h3 h4 h5 h6
    simp [resolveDate, h1, h2, h3, h4, h5, h6]
  · intro parse now p s t h1 h2 h3 h4 h5 h6
    simp [resolveDate, h1, h2, h3, h4, h5, h6]
  · intro parse now p h1 h2 h3 h4 h5
    simp [resolveDate, h1, h2, h3, h4, h5]

/-- Witness for the amended C4: the Scenario B page through the
meta-tag-only branch, and the counterexample page resolving to `now`. -/
theorem thm_C4_amended_witness :
    resolveDate parseScenB 999 pageScenB = 424 ∧
    resolveDate parseC4 99 pageC4 = 99 :=
  ⟨thm_C4_amended.2.2.2.2.2.1 parseScenB 999 pageScenB "2024-03-01" 424
     (by decide) (by decide) (by decide) (by decide) (by decide) (by decide),
   thm_C4_amended.2.2.1 parseC4 99 pageC4 "garbage"
     (by decide) (by decide) (by decide)⟩

/-- Counterexample to C5: the URL `"a=b&c"` contains `&` (so the claim
applies to it), but decoding its sanitized form with the standard XML-entity
decoder yields `"a%3Db&c"`, not the original — the extra `=` → `%3D`
percent-encoding is not an XML entity and is never undone. -/
theorem thm_C5_cex :
    containsSub "a=b&c" "&" = true ∧
    unescapeXml (sanitizeUrl "a=b&c") = "a%3Db&c" ∧
    unescapeXml (sanitizeUrl "a=b&c") ≠ "a=b&c" := by
  refine ⟨by decide, by decide, by decide⟩

/-- C5 (amended): decoding the sanitized title/description reproduces the
original string exactly, for every string; decoding a sanitized URL
reproduces the original with each literal `=` replaced by `%3D` — hence
exactly the `=`-free URLs round-trip. -/
theorem thm_C5_amended :
    (∀ s : String, unescapeXml (sanitizeText s) = s) ∧
    (∀ s : String, unescapeXml (sanitizeUrl s) =
       ⟨replaceChar '=' ("%3D".toList) s.toList⟩) ∧
    (∀ s : String, '=' ∉ s.toList → unescapeXml (sanitizeUrl s) = s) := by
  refine ⟨?_, ?_, ?_⟩
  · intro s
    cases s with
    | mk data =>
      show String.mk (unescapeXmlList (escapeXmlList data)) = String.mk data
      rw [unescape_escape_list]
  · intro s
    cases s with
    | mk data =>
      show String.mk (unescapeXmlList (replaceChar '=' ("%3D".toList)
        (escapeXmlList data))) = String.mk (replaceChar '=' ("%3D".toList) data)
      rw [unescape_sanitizeUrl_list]
  · intro s h
    cases s with
    | mk data =>
      show String.mk (unescapeXmlList (replaceChar '=' ("%3D".toList)
        (escapeXmlList data))) = String.mk data
      have h' : '=' ∉ data := h
      rw [unescape_sanitizeUrl_list, replaceChar_not_mem h']

/-- Witness for the amended C5: an `=`-free URL holding all five escaped
characters round-trips exactly. -/
theorem thm_C5_witness :
    ('=' ∉ ("a&b<c>d\"e'f".toList)) ∧
    unescapeXml (sanitizeUrl "a&b<c>d\"e'f") = "a&b<c>d\"e'f" :=
  ⟨by decide, thm_C5_amended.2.2 "a&b<c>d\"e'f" (by decide)⟩

/-- Counterexample to C6: two candidates with the identical resolved URL
`https://d.bandcamp.com/album/x` enter the normalization pipeline (a listing
page exposing the same album twice), the filter keeps both, and the emitted
feed holds two items with the same link — not exactly one. -/
theorem thm_C6_cex :
    scrapeArtistReleases envC6 artistC6 = [relC6, relC6] ∧
    filterRealReleases [relC6, relC6] = [relC6, relC6] ∧
    (generateFeedForFile envC6 "t" "d" [artistC6]).map
      (fun doc => doc.items.map (fun it => it.link)) =
      some ["https://d.bandcamp.com/album/x", "https://d.bandcamp.com/album/x"] := by
  refine ⟨by decide, by decide, by decide⟩

/-- C6 (amended): the normalization pipeline performs no deduplication — a
real release appearing twice survives twice — and the only URL
deduplication lives in the legacy generic scraper, whose output is pairwise
distinct in both URL and title. -/
theorem thm_C6_amended :
    (∀ r : Release, isRealRelease r = true →
       filterRealReleases [r, r] = [r, r]) ∧
    (∀ (env : LegacyEnv) (url name : String),
       distinctUrlTitle (scrapeGeneric env url name)) := by
  refine ⟨?_, ?_⟩
  · intro r h
    simp [filterRealReleases, h]
  · intro env url name
    cases hf : env.pageLinks url with
    | error msg =>
      rw [scrapeGeneric, hf]
      exact List.pairwise_singleton _ _
    | ok links =>
      exact (scrapeGeneric_props env url name links hf).2.1

/-- Witness for the amended C6: the duplicated real release of the
counterexample environment survives twice. -/
theorem thm_C6_witness :
    isRealRelease relC6 = true ∧ filterRealReleases [relC6, relC6] = [relC6, relC6] :=
  ⟨by decide, thm_C6_amended.1 relC6 (by decide)⟩

/-- Counterexample to C7: with artist 1 owning only the older release
(epoch 5) and artist 2 the newer one (epoch 10), the emitted feed lists the
items in configuration order `[5, 10]` — ascending, so the claimed
descending order across artists fails. -/
theorem thm_C7_cex :
    itemsC7.map (fun it => it.date) = [some 5, some 10] ∧
    ¬ itemsC7.Pairwise (fun a b => b.date.getD 0 ≤ a.date.getD 0) := by
  refine ⟨by decide, by decide⟩

/-- C7 (amended): the stable sort orders one Bandcamp artist's own releases
descending by date (and leaves an already-descending list untouched — ties
keep insertion order), but the assembled feed is the plain concatenation of
the artists' item lists in configuration order, with no cross-artist sort. -/
theorem thm_C7_amended :
    (∀ l : List Release, sortedDescByDate (sortByDateDesc l)) ∧
    (∀ l : List Release, sortedDescByDate l → sortByDateDesc l = l) ∧
    (∀ (env : ScrapeEnv) (t d : String) (artists : List Artist)
       (doc : FeedDocument),
       generateFeedForFile env t d artists = some doc →
       totalRealCount env artists ≠ 0 →
       doc.items = artists.flatMap (feedItemsForArtist env)) := by
  refine ⟨sortedDescByDate_sortByDateDesc, fun l h => sortByDateDesc_of_sorted h, ?_⟩
  intro env t d artists doc h hnz
  rw [generateFeedForFile] at h
  by_cases he : artists.isEmpty = true
  · rw [if_pos he] at h
    exact absurd h (by simp)
  · rw [if_neg he, if_neg hnz] at h
    simp only [Option.some.injEq] at h
    subst h
    rfl

/-- Witness for the amended C7: the concrete two-artist feed of the
counterexample is exactly the concatenation of the two artists' items. -/
theorem thm_C7_witness :
    sortByDateDesc [relC6] = [relC6] ∧
    (⟨"t", "d", itemsC7⟩ : FeedDocument).items =
      [artistC7a, artistC7b].flatMap (feedItemsForArtist envC7) :=
  ⟨thm_C7_amended.2.1 [relC6] (List.pairwise_singleton _ _),
   thm_C7_amended.2.2 envC7 "t" "d" [artistC7a, artistC7b] ⟨"t", "d", itemsC7⟩
     (by decide) (by decide)⟩

/-- C8: the Bandcamp extractor yields at most `maxReleases` releases, and
Scenario A — `maxReleases = 2` against a listing exposing five grid items —
yields exactly the first two, in document order, with URLs absolutized
against the artist's base URL. -/
theorem thm_C8 :
    (∀ (parse : String → Option Nat) (now : Nat) (url : String) (maxR : Nat)
       (listing : Option (List BandcampItem)), 1 ≤ maxR →
       (scrapeBandcamp parse now url maxR listing).length ≤ maxR) ∧
    scrapeBandcamp parseC8 100 "https://x.bandcamp.com/music" 2 (some listingC8) =
      [⟨"Alpha", "https://x.bandcamp.com/album/a1", some 10, "",
        "New release by artist"⟩,
       ⟨"Beta", "https://x.bandcamp.com/album/a2", some 5, "",
        "New release by artist"⟩] := by
  refine ⟨?_, by decide⟩
  intro parse now url maxR listing h
  exact scrapeBandcamp_length_le h

/-- Witness for C8: the Scenario A call stays within its `maxReleases` of 2. -/
theorem thm_C8_witness :
    1 ≤ 2 ∧
    (scrapeBandcamp parseC8 100 "https://x.bandcamp.com/music" 2
      (some listingC8)).length ≤ 2 :=
  ⟨by decide,
   thm_C8.1 parseC8 100 "https://x.bandcamp.com/music" 2 (some listingC8) (by decide)⟩

/-- Counterexample to C9: the URL `https://evil.example.org/spotify.com` has
a host matching none of the three platforms, yet the dispatch — which tests
substring containment over the whole URL — selects the Spotify scraper, and
on a page with no hyperlinks at all the returned list is a non-empty
placeholder instead of the generic fallback's empty result. -/
theorem thm_C9_cex :
    containsSub (hostOf artistC9.url) "bandcamp.com" = false ∧
    containsSub (hostOf artistC9.url) "soundcloud.com" = false ∧
    containsSub (hostOf artistC9.url) "spotify.com" = false ∧
    scrapeGeneric envC9 artistC9.url artistC9.name = [] ∧
    legacyScrapeArtistReleases envC9 artistC9 =
      [⟨"Spotify Releases", artistC9.url, some 7, "",
        "Visit Spotify to see releases from E"⟩] ∧
    legacyScrapeArtistReleases envC9 artistC9 ≠
      scrapeGeneric envC9 artistC9.url artistC9.name := by
  refine ⟨by decide, by decide, by decide, by decide, by decide, by decide⟩

/-- C9 (amended): for an artist URL *containing* none of the three platform
substrings, the dispatch selects the generic fallback, which scans the
page's hyperlinks and returns at most the first three accepted matches
(keyword in lowercased text or href, trimmed text length in [4,99]),
deduplicated by URL-or-title. -/
theorem thm_C9_amended (env : LegacyEnv) (artist : Artist)
    (h1 : containsSub artist.url "bandcamp.com" = false)
    (h2 : containsSub artist.url "soundcloud.com" = false)
    (h3 : containsSub artist.url "spotify.com" = false) :
    legacyScrapeArtistReleases env artist =
      scrapeGeneric env artist.url artist.name ∧
    ∀ links, env.pageLinks artist.url = .ok links →
      (scrapeGeneric env artist.url artist.name).length ≤ 3 ∧
      distinctUrlTitle (scrapeGeneric env artist.url artist.name) ∧
      ∀ r ∈ scrapeGeneric env artist.url artist.name,
        ∃ l ∈ links, genericAccepts l = true ∧ r.title = jsTrim l.text := by
  refine ⟨?_, fun links hf => scrapeGeneric_props env artist.url artist.name links hf⟩
  rw [legacyScrapeArtistReleases, if_neg (by simp [h1]), if_neg (by simp [h2]),
      if_neg (by simp [h3])]

/-- Witness for the amended C9: an unrecognized-platform artist whose page
holds one accepted hyperlink. -/
theorem thm_C9_witness :
    (legacyScrapeArtistReleases envC9w artistC9w =
       scrapeGeneric envC9w artistC9w.url artistC9w.name) ∧
    ((scrapeGeneric envC9w artistC9w.url artistC9w.name).length ≤ 3 ∧
     distinctUrlTitle (scrapeGeneric envC9w artistC9w.url artistC9w.name) ∧
     ∀ r ∈ scrapeGeneric envC9w artistC9w.url artistC9w.name,
       ∃ l ∈ [linkC9w], genericAccepts l = true ∧ r.title = jsTrim l.text) :=
  ⟨(thm_C9_amended envC9w artistC9w (by decide) (by decide) (by decide)).1,
   (thm_C9_amended envC9w artistC9w (by decide) (by decide) (by decide)).2
     [linkC9w] rfl⟩

/-- Counterexample to C10: an artist URL containing `spotify.com` in a query
string but hosted on Bandcamp is dispatched to the Bandcamp scraper (tested
first), returns a real release — not the Spotify sample — and contributes
one item to the feed. -/
theorem thm_C10_cex :
    containsSub artistC10.url "spotify.com" = true ∧
    scrapeArtistReleases envC10 artistC10 =
      [⟨"Real Thing", "https://x.bandcamp.com/album/r", some 5, "",
        "New release by artist"⟩] ∧
    scrapeArtistReleases envC10 artistC10 ≠
      scrapeSpotify envC10.now artistC10.url ∧
    (generateFeedForFile envC10 "t" "d" [artistC10]).map
      (fun doc => doc.items.length) = some 1 := by
  refine ⟨by decide, by decide, by decide, by decide⟩

/-- C10 (amended): for an artist whose URL contains `spotify.com` but
neither `bandcamp.com` nor `soundcloud.com`, the extractor returns exactly
the single "Sample Spotify Release" candidate, the placeholder filter
rejects it, and the artist contributes no feed items. -/
theorem thm_C10_amended (env : ScrapeEnv) (artist : Artist)
    (h1 : containsSub artist.url "spotify.com" = true)
    (h2 : containsSub artist.url "bandcamp.com" = false)
    (h3 : containsSub artist.url "soundcloud.com" = false) :
    scrapeArtistReleases env artist =
      [⟨"Sample Spotify Release", artist.url, some env.now, "",
        "Demo release (Spotify requires authentication)"⟩] ∧
    filterRealReleases (scrapeArtistReleases env artist) = [] ∧
    feedItemsForArtist env artist = [] := by
  have hd : scrapeArtistReleases env artist = scrapeSpotify env.now artist.url := by
    rw [scrapeArtistReleases]
    rw [if_neg (by simp [h2]), if_neg (by simp [h3]), if_pos h1]
  have hs : containsSub "Sample Spotify Release" "Sample" = true := by decide
  have hfil : isRealRelease ⟨"Sample Spotify Release", artist.url, some env.now, "",
      "Demo release (Spotify requires authentication)"⟩ = false := by
    simp [isRealRelease, hs]
  refine ⟨?_, ?_, ?_⟩
  · rw [hd]
    rfl
  · rw [hd]
    simp [scrapeSpotify, filterRealReleases, hfil]
  · rw [feedItemsForArtist, hd]
    simp [scrapeSpotify, filterRealReleases, hfil]

/-- Witness for the amended C10: a plain `open.spotify.com` artist
contributes nothing. -/
theorem thm_C10_witness :
    scrapeArtistReleases envNone artistSpotifyW =
      [⟨"Sample Spotify Release", artistSpotifyW.url, some envNone.now, "",
        "Demo release (Spotify requires authentication)"⟩] ∧
    filterRealReleases (scrapeArtistReleases envNone artistSpotifyW) = [] ∧
    feedItemsForArtist envNone artistSpotifyW = [] :=
  thm_C10_amended envNone artistSpotifyW (by decide) (by decide) (by decide)
